import Mathlib

/-!
Formal model of `pwndbg/vmmap.py`: the memory-map discovery subsystem.

The file shallowly embeds the Python module `pwndbg/vmmap.py`.  Collaborators
that live outside that module (`pwndbg.memory`, `pwndbg.elf`, `pwndbg.stack`,
`gdb.execute`, `pwndbg.file`) are modelled abstractly as fields of an
environment record `Env`; the data they return is arbitrary.  Mutable module
state (`explored_pages`, `aslr`) is threaded explicitly.
-/

namespace Vmmap

/-- Modelled from the spec: `pwndbg.memory.Page` is not under `src/`.  The
spec describes it as a contiguous mapped range with `start`, a non-negative
`size` (with `end = start + size`), a 3-bit permission bitset `flags`
(READ = 4, WRITE = 2, EXECUTE = 1 as used throughout `vmmap.py`), the byte
`offset` into the backing object, and the backing object name `objfile`
(empty string for anonymous mappings). -/
structure Page where
  start : Nat
  size : Nat
  flags : Nat
  offset : Nat
  objfile : String
deriving DecidableEq, Repr

/-- `end = start + size` (spec: §3, Page data model). -/
def Page.stop (p : Page) : Nat := p.start + p.size

/-- Modelled from the spec: containment, `p.start <= a < p.end`
(Python `address in page`, implemented by `pwndbg.memory.Page.__contains__`). -/
def Page.Contains (p : Page) (a : Nat) : Prop :=
  p.start ≤ a ∧ a < p.stop

instance (p : Page) (a : Nat) : Decidable (p.Contains a) := by
  unfold Page.Contains; infer_instance

/-- Modelled from the spec: Pages order by `start` (Python `pages.sort()` uses
`pwndbg.memory.Page` ordering, which the spec states is by start address). -/
def pageLe (p q : Page) : Prop := p.start ≤ q.start

instance : DecidableRel pageLe := fun p q => by unfold pageLe; infer_instance

instance : IsTotal Page pageLe := ⟨fun p q => Nat.le_total p.start q.start⟩

instance : IsTrans Page pageLe := ⟨fun _ _ _ h h' => Nat.le_trans h h'⟩

/-- `pages.sort()`: Python's stable sort by the Page order; modelled by
stable insertion sort on the `start` key. -/
def sortPages (pages : List Page) : List Page :=
  List.insertionSort pageLe pages

/-- Modelled from the spec: `pwndbg.memory.MMAP_MIN_ADDR`, "the minimum
mappable address (a platform constant)"; the concrete value is irrelevant
to every claim. -/
def MMAP_MIN_ADDR : Nat := 0x8000

/-- Modelled from the spec: `pwndbg.memory.PAGE_SIZE` (page granularity of
alignment; concrete value irrelevant to the claims). -/
def PAGE_SIZE : Nat := 0x1000

/-- Modelled from the spec: `pwndbg.memory.page_align`, "align it down to a
page boundary". -/
def page_align (a : Nat) : Nat := a - a % PAGE_SIZE

/-- The external collaborators of `vmmap.py`, as one abstract environment:
the (memoized) outputs of the four source strategies, the stack pages from
`pwndbg.stack.stacks.values()`, the probing primitives of `pwndbg.memory`
(`peek`, `poke`, `find_lower_boundary`, `find_upper_boundary`) and the
stack-NX signal `pwndbg.stack.nx`. -/
structure Env where
  procMapsPages : List Page
  infoAuxvPages : List Page
  infoSharedlibraryPages : List Page
  infoFilesPages : List Page
  stackPages : List Page
  peek : Nat → Bool
  poke : Nat → Bool
  nx : Bool
  lowerBoundary : Nat → Nat
  upperBoundary : Nat → Nat

/-- `find_boundaries(addr, name='')`: boundary search around one known-mapped
address; builds `Page(start, end - start, 4, 0, name)` from the two external
boundary searches. -/
def find_boundaries (env : Env) (addr : Nat) (name : String) : Page :=
  let start := env.lowerBoundary addr
  let stop := env.upperBoundary addr
  { start := start, size := stop - start, flags := 4, offset := 0, objfile := name }

/-- `get()`: the fallback-chain coordinator.  `explored` is the module-level
`explored_pages` list (the Exploration Cache). -/
def get (env : Env) (explored : List Page) : List Page :=
  let pages : List Page := []
  let pages := pages ++ env.procMapsPages
  let pages :=
    if pages.isEmpty then
      let pages := pages ++ env.infoAuxvPages
      let pages :=
        if !pages.isEmpty then pages ++ env.infoSharedlibraryPages
        else pages ++ env.infoFilesPages
      pages ++ env.stackPages
    else pages
  let pages := pages ++ explored
  sortPages pages

/-- `explore(address_maybe)`: the boundary prober.  Returns the result
(`None` on read-probe failure), the new `explored_pages` list, and — as
instrumentation for call-count properties — whether the boundary-search
collaborator (`find_boundaries`) was invoked. -/
def explore (env : Env) (explored : List Page) (addressMaybe : Nat) :
    Option Page × List Page × Bool :=
  let a := page_align addressMaybe
  let flags := if env.peek a then 4 else 0
  if flags = 0 then (none, explored, false)
  else
    let flags := flags ||| (if env.poke a then 2 else 0)
    let flags := flags ||| (if !env.nx then 1 else 0)
    let page := find_boundaries env a ""
    let page := { page with flags := flags }
    (some page, explored ++ [page], true)

/-- Outcome of one `find(address)` call.  Besides the returned page and the
updated `explored_pages` list, it records — as instrumentation for
side-effect/call-count properties — whether the source strategies were
consulted (`get()` ran), whether the prober (`explore`) ran, and whether the
boundary-search collaborator ran. -/
structure FindTrace where
  result : Option Page
  explored : List Page
  strategiesInvoked : Bool
  proberInvoked : Bool
  boundarySearched : Bool
deriving DecidableEq, Repr

/-- `find(address)`: reject `None` / below-`MMAP_MIN_ADDR` addresses, else
scan `get()` for the first containing page, else fall through to `explore`. -/
def find (env : Env) (explored : List Page) (address : Option Nat) : FindTrace :=
  match address with
  | none => ⟨none, explored, false, false, false⟩
  | some a =>
    if a < MMAP_MIN_ADDR then ⟨none, explored, false, false, false⟩
    else
      match (get env explored).find? (fun p => decide (p.Contains a)) with
      | some page => ⟨some page, explored, true, false, false⟩
      | none =>
        match explore env explored a with
        | (r, st, b) => ⟨r, st, true, true, b⟩

lemma sortPages_perm (l : List Page) : (sortPages l).Perm l :=
  List.perm_insertionSort pageLe l

lemma sortPages_sorted (l : List Page) : List.Sorted pageLe (sortPages l) :=
  List.sorted_insertionSort pageLe l

lemma get_eq_of_procMaps_ne (env : Env) (st : List Page)
    (h : env.procMapsPages ≠ []) :
    get env st = sortPages (env.procMapsPages ++ st) := by
  cases hp : env.procMapsPages with
  | nil => exact absurd hp h
  | cons a l => simp [get, hp]

lemma get_eq_of_fallback_shared (env : Env) (st : List Page)
    (h : env.procMapsPages = []) (h' : env.infoAuxvPages ≠ []) :
    get env st =
      sortPages (env.infoAuxvPages ++ env.infoSharedlibraryPages ++
        env.stackPages ++ st) := by
  cases ha : env.infoAuxvPages with
  | nil => exact absurd ha h'
  | cons a l => simp [get, h, ha]

lemma get_eq_of_fallback_files (env : Env) (st : List Page)
    (h : env.procMapsPages = []) (h' : env.infoAuxvPages = []) :
    get env st = sortPages (env.infoFilesPages ++ env.stackPages ++ st) := by
  simp [get, h, h']

/-- C1: `get()` returns exactly the ProcMaps pages plus the Exploration
Cache when ProcMaps is non-empty; otherwise the AuxvDerived pages, then
SharedLibraryInfo (if AuxvDerived was non-empty) else FileInfo, then the
stack-provider pages, then the Exploration Cache — in every case as one
sequence sorted by Page start address. -/
theorem get_fallback_chain_sorted (env : Env) (st : List Page) :
    (env.procMapsPages ≠ [] →
      (get env st).Perm (env.procMapsPages ++ st)) ∧
    (env.procMapsPages = [] → env.infoAuxvPages ≠ [] →
      (get env st).Perm (env.infoAuxvPages ++ env.infoSharedlibraryPages ++
        env.stackPages ++ st)) ∧
    (env.procMapsPages = [] → env.infoAuxvPages = [] →
      (get env st).Perm (env.infoFilesPages ++ env.stackPages ++ st)) ∧
    List.Sorted pageLe (get env st) := by
  refine ⟨fun h => ?_, fun h h' => ?_, fun h h' => ?_, ?_⟩
  · rw [get_eq_of_procMaps_ne env st h]; exact sortPages_perm _
  · rw [get_eq_of_fallback_shared env st h h']; exact sortPages_perm _
  · rw [get_eq_of_fallback_files env st h h']; exact sortPages_perm _
  · unfold get; exact sortPages_sorted _

/-- Sample pages and environments used by the witness theorems. -/
def pageA : Page := ⟨0x1000, 0x1000, 5, 0, "/bin/dash"⟩

def pageB : Page := ⟨0x403000, 0x2000, 6, 0, "[heap]"⟩

def pageC : Page := ⟨0x7f0000, 0x1000, 4, 0, "libc.so"⟩

def envProc : Env :=
  ⟨[pageA], [], [], [], [], fun _ => true, fun _ => true, false,
    fun a => a, fun a => a + 0x1000⟩

def envAuxv : Env :=
  ⟨[], [pageB], [pageC], [], [pageA], fun _ => true, fun _ => true, false,
    fun a => a, fun a => a + 0x1000⟩

def envFiles : Env :=
  ⟨[], [], [], [pageC], [pageB], fun _ => true, fun _ => false, true,
    fun a => a, fun a => a + 0x1000⟩

theorem get_fallback_chain_sorted_witness :
    (get envProc [pageB]).Perm ([pageA] ++ [pageB]) ∧
    (get envAuxv []).Perm ([pageB] ++ [pageC] ++ [pageA] ++ []) ∧
    (get envFiles []).Perm ([pageC] ++ [pageB] ++ []) := by
  refine ⟨?_, ?_, ?_⟩
  · exact (get_fallback_chain_sorted envProc [pageB]).1 (by decide)
  · exact (get_fallback_chain_sorted envAuxv []).2.1 rfl (by decide)
  · exact (get_fallback_chain_sorted envFiles []).2.2.1 rfl rfl

lemma explore_peek_false (env : Env) (st : List Page) (a : Nat)
    (h : env.peek (page_align a) = false) :
    explore env st a = (none, st, false) := by
  simp [explore, h]

lemma explore_peek_true (env : Env) (st : List Page) (a : Nat)
    (h : env.peek (page_align a) = true) :
    explore env st a =
      (some { find_boundaries env (page_align a) "" with
                flags := 4 ||| (if env.poke (page_align a) then 2 else 0) |||
                  (if !env.nx then 1 else 0) },
       st ++ [{ find_boundaries env (page_align a) "" with
                  flags := 4 ||| (if env.poke (page_align a) then 2 else 0) |||
                    (if !env.nx then 1 else 0) }],
       true) := by
  simp [explore, h]

/-- C2: `explore(a)` returns `None` when the read probe at the page-aligned
address fails; otherwise the returned Page has the READ bit set, the WRITE
bit set iff the write probe succeeds, the EXECUTE bit set iff the external
stack-non-executable signal is off, and the Page is appended to the
Exploration Cache. -/
theorem explore_probe_flags (env : Env) (st : List Page) (a : Nat) :
    (env.peek (page_align a) = false → explore env st a = (none, st, false)) ∧
    (env.peek (page_align a) = true →
      ∃ p, explore env st a = (some p, st ++ [p], true) ∧
        p.flags.testBit 2 = true ∧
        p.flags.testBit 1 = env.poke (page_align a) ∧
        p.flags.testBit 0 = !env.nx) := by
  refine ⟨explore_peek_false env st a, fun h => ?_⟩
  refine ⟨_, explore_peek_true env st a h, ?_, ?_, ?_⟩ <;>
    rcases hb : env.poke (page_align a) <;> rcases hc : env.nx <;>
      simp [hb, hc] <;> decide

theorem explore_probe_flags_witness :
    envProc.peek (page_align 0x403210) = true ∧
    ∃ p, explore envProc [] 0x403210 = (some p, [] ++ [p], true) ∧
      p.flags.testBit 2 = true ∧
      p.flags.testBit 1 = envProc.poke (page_align 0x403210) ∧
      p.flags.testBit 0 = !envProc.nx :=
  ⟨rfl, (explore_probe_flags envProc [] 0x403210).2 rfl⟩

/-- C4: `find` with a null address, or an address below `MMAP_MIN_ADDR`,
returns "not found", leaves the Exploration Cache unchanged, and invokes no
source strategy, no prober and no boundary search. -/
theorem find_invalid_query (env : Env) (st : List Page) (address : Option Nat)
    (h : address = none ∨ ∃ a, address = some a ∧ a < MMAP_MIN_ADDR) :
    find env st address = ⟨none, st, false, false, false⟩ := by
  rcases h with h | ⟨a, rfl, ha⟩
  · subst h; rfl
  · simp [find, ha]

theorem find_invalid_query_witness :
    ((none : Option Nat) = none ∨
      ∃ a, (none : Option Nat) = some a ∧ a < MMAP_MIN_ADDR) ∧
    ((some 0x1000 : Option Nat) = none ∨
      ∃ a, (some 0x1000 : Option Nat) = some a ∧ a < MMAP_MIN_ADDR) ∧
    find envProc [pageB] none = ⟨none, [pageB], false, false, false⟩ ∧
    find envProc [pageB] (some 0x1000) = ⟨none, [pageB], false, false, false⟩ :=
  ⟨Or.inl rfl, Or.inr ⟨0x1000, rfl, by decide⟩,
    find_invalid_query envProc [pageB] none (Or.inl rfl),
    find_invalid_query envProc [pageB] (some 0x1000)
      (Or.inr ⟨0x1000, rfl, by decide⟩)⟩

lemma get_sorted (env : Env) (st : List Page) :
    List.Sorted pageLe (get env st) := by
  unfold get; exact sortPages_sorted _

lemma get_eq_sortPages_append (env : Env) (st : List Page) :
    ∃ pre, get env st = sortPages (pre ++ st) :=
  ⟨_, rfl⟩

/-- The strategy portion of `get()` depends only on the environment, not on
the Exploration Cache appended after it. -/
lemma get_eq_sortPages_append_all (env : Env) :
    ∃ pre, ∀ st, get env st = sortPages (pre ++ st) :=
  ⟨_, fun _ => rfl⟩

lemma mem_get_of_mem_explored (env : Env) {st : List Page} {p : Page}
    (hp : p ∈ st) : p ∈ get env st := by
  obtain ⟨pre, hpre⟩ := get_eq_sortPages_append env st
  rw [hpre]
  unfold sortPages
  rw [List.mem_insertionSort]
  exact List.mem_append_right pre hp

/-- On a list sorted by start address, `find?` succeeds whenever some
element satisfies the predicate, and the hit starts no later than any
satisfying element. -/
lemma find?_sorted_first (pred : Page → Bool) :
    ∀ l : List Page, List.Sorted pageLe l → ∀ p ∈ l, pred p = true →
      ∃ q, l.find? pred = some q ∧ pred q = true ∧ q.start ≤ p.start := by
  intro l
  induction l with
  | nil => intro _ p hp; exact absurd hp (List.not_mem_nil p)
  | cons x t ih =>
    intro hs p hp hpred
    rw [List.sorted_cons] at hs
    by_cases hx : pred x = true
    · refine ⟨x, by simp [List.find?, hx], hx, ?_⟩
      rcases List.mem_cons.mp hp with rfl | hpt
      · exact Nat.le_refl _
      · exact hs.1 p hpt
    · rcases List.mem_cons.mp hp with rfl | hpt
      · exact absurd hpred hx
      · obtain ⟨q, hq, hqp, hqs⟩ := ih hs.2 p hpt hpred
        refine ⟨q, ?_, hqp, hqs⟩
        simp [List.find?, hx, hq]

/-- A page mapped below `MMAP_MIN_ADDR`: used to separate the containment
claim from the invalid-query guard. -/
def pageLow : Page := ⟨0x1000, 0x1000, 4, 0, ""⟩

def envLow : Env :=
  ⟨[pageLow], [], [], [], [], fun _ => true, fun _ => true, false,
    fun a => a, fun a => a + 0x1000⟩

/-- C3 counterexample: address `0x1000` is contained in a Page of `get()`,
yet `find(0x1000)` returns "not found", because the below-`MMAP_MIN_ADDR`
guard fires before the containment scan. -/
theorem find_contained_counterexample :
    pageLow ∈ get envLow [] ∧ pageLow.Contains 0x1000 ∧
    (find envLow [] (some 0x1000)).result = none := by
  refine ⟨?_, ?_, ?_⟩ <;> decide

/-- C3 amended: for every address `a` with `MMAP_MIN_ADDR ≤ a` contained in
some Page `p` of `get()`, `find(a)` returns a containing Page that sorts no
later than `p` by start address (first match in address order), never
"not found". -/
theorem find_contained_returns_first (env : Env) (st : List Page) (a : Nat)
    (p : Page) (hmin : MMAP_MIN_ADDR ≤ a) (hp : p ∈ get env st)
    (hc : p.Contains a) :
    ∃ q, (find env st (some a)).result = some q ∧ q.Contains a ∧
      q.start ≤ p.start := by
  have hnot : ¬ a < MMAP_MIN_ADDR := Nat.not_lt.mpr hmin
  obtain ⟨q, hq, hqc, hqs⟩ :=
    find?_sorted_first (fun r => decide (r.Contains a)) (get env st)
      (get_sorted env st) p hp (by simpa using hc)
  exact ⟨q, by simp [find, hnot, hq], by simpa using hqc, hqs⟩

theorem find_contained_returns_first_witness :
    MMAP_MIN_ADDR ≤ 0x403100 ∧ pageB ∈ get envAuxv [] ∧
    pageB.Contains 0x403100 ∧
    ∃ q, (find envAuxv [] (some 0x403100)).result = some q ∧
      q.Contains 0x403100 ∧ q.start ≤ pageB.start :=
  ⟨by decide, by decide, by decide,
    find_contained_returns_first envAuxv [] 0x403100 pageB
      (by decide) (by decide) (by decide)⟩

def envExp : Env :=
  ⟨[], [], [], [], [], fun _ => true, fun _ => true, false,
    fun a => a, fun a => a + 0x1000⟩

/-- C6 counterexample, refuting both halves of the claim at concrete
inputs.  First, after a successful `explore(0x10000)`, a second
`explore(0x10000)` re-invokes the boundary-search collaborator (flag `true`)
and appends a duplicate Page instead of answering from the Exploration
Cache — `explore` never consults the cache.  Second, at `a = 0x1000` the
probe succeeds and the boundary searches bracket the aligned address, yet
the subsequent `find(0x1000)` returns "not found" rather than the cached
Page, because `a` lies below `MMAP_MIN_ADDR`. -/
theorem explore_twice_counterexample :
    (explore envExp [] 0x10000).2.2 = true ∧
    (explore envExp (explore envExp [] 0x10000).2.1 0x10000).2.2 = true ∧
    (explore envExp (explore envExp [] 0x10000).2.1 0x10000).2.1 =
      [⟨0x10000, 0x1000, 7, 0, ""⟩, ⟨0x10000, 0x1000, 7, 0, ""⟩] ∧
    envLow.lowerBoundary (page_align 0x1000) ≤ page_align 0x1000 ∧
    0x1000 < envLow.upperBoundary (page_align 0x1000) ∧
    (explore envLow [] 0x1000).1 = some ⟨0x1000, 0x1000, 7, 0, ""⟩ ∧
    (find envLow (explore envLow [] 0x1000).2.1 (some 0x1000)).result =
      none := by
  refine ⟨?_, ?_, ?_, ?_, ?_, ?_, ?_⟩ <;> decide

/-- C6 amended: for every address `a` with `MMAP_MIN_ADDR ≤ a` on which the
read probe succeeds and the boundary searches bracket the aligned address,
`explore(a)` returns a Page with `start ≤ align_down(a) < end` appended to
the Exploration Cache, and a subsequent `find(a)` call returns a containing
Page without invoking the prober or the boundary-search collaborator —
and when no previously known Page contained `a` (the situation in which
`find` falls through to `explore`), the Page returned is exactly the cached
explored Page.  A repeated `explore(a)`, by contrast, re-probes
unconditionally, and an `a` below `MMAP_MIN_ADDR` is rejected by `find`
despite the cached Page. -/
theorem explore_then_find_cached (env : Env) (st : List Page) (a : Nat)
    (hpeek : env.peek (page_align a) = true)
    (hlow : env.lowerBoundary (page_align a) ≤ page_align a)
    (hup : a < env.upperBoundary (page_align a))
    (hmin : MMAP_MIN_ADDR ≤ a) :
    ∃ p, explore env st a = (some p, st ++ [p], true) ∧
      p.start ≤ page_align a ∧ page_align a < p.stop ∧
      (find env (st ++ [p]) (some a)).proberInvoked = false ∧
      (find env (st ++ [p]) (some a)).boundarySearched = false ∧
      (∃ q, (find env (st ++ [p]) (some a)).result = some q ∧
        q.Contains a) ∧
      ((∀ r ∈ get env st, ¬ r.Contains a) →
        (find env (st ++ [p]) (some a)).result = some p) := by
  have halign : page_align a ≤ a := Nat.sub_le a _
  have hlu : env.lowerBoundary (page_align a) ≤
      env.upperBoundary (page_align a) :=
    Nat.le_trans hlow (Nat.le_trans halign (Nat.le_of_lt hup))
  set p : Page :=
    { find_boundaries env (page_align a) "" with
        flags := 4 ||| (if env.poke (page_align a) then 2 else 0) |||
          (if !env.nx then 1 else 0) } with hpdef
  have hexp : explore env st a = (some p, st ++ [p], true) :=
    explore_peek_true env st a hpeek
  have hpe : p.stop = env.upperBoundary (page_align a) := by
    show env.lowerBoundary (page_align a) +
      (env.upperBoundary (page_align a) -
        env.lowerBoundary (page_align a)) = _
    exact Nat.add_sub_cancel' hlu
  have hpc : p.Contains a :=
    ⟨Nat.le_trans hlow halign, by show a < p.stop; rw [hpe]; exact hup⟩
  have hpmem : p ∈ get env (st ++ [p]) :=
    mem_get_of_mem_explored env (by simp)
  obtain ⟨q, hq, hqc, _⟩ :=
    find?_sorted_first (fun r => decide (r.Contains a)) (get env (st ++ [p]))
      (get_sorted env _) p hpmem (by simpa using hpc)
  have hnot : ¬ a < MMAP_MIN_ADDR := Nat.not_lt.mpr hmin
  have hfind : find env (st ++ [p]) (some a) =
      ⟨some q, st ++ [p], true, false, false⟩ := by
    simp [find, hnot, hq]
  refine ⟨p, hexp, hlow, ?_, ?_, ?_, ⟨q, ?_, by simpa using hqc⟩, ?_⟩
  · rw [hpe]; exact Nat.lt_of_le_of_lt halign hup
  · rw [hfind]
  · rw [hfind]
  · rw [hfind]
  · intro hnone
    obtain ⟨pre, hpre⟩ := get_eq_sortPages_append_all env
    have hqmem : q ∈ get env (st ++ [p]) := List.mem_of_find?_eq_some hq
    rw [hpre (st ++ [p]), sortPages, List.mem_insertionSort] at hqmem
    have hqp : q = p := by
      rcases List.mem_append.mp hqmem with h1 | h2
      · have hq_in_get : q ∈ get env st := by
          rw [hpre st, sortPages, List.mem_insertionSort]
          exact List.mem_append_left st h1
        exact absurd (show q.Contains a by simpa using hqc)
          (hnone q hq_in_get)
      · rcases List.mem_append.mp h2 with h3 | h4
        · have hq_in_get : q ∈ get env st := by
            rw [hpre st, sortPages, List.mem_insertionSort]
            exact List.mem_append_right pre h3
          exact absurd (show q.Contains a by simpa using hqc)
            (hnone q hq_in_get)
        · simpa using h4
    rw [hfind, hqp]

theorem explore_then_find_cached_witness :
    envExp.peek (page_align 0x10020) = true ∧
    envExp.lowerBoundary (page_align 0x10020) ≤ page_align 0x10020 ∧
    0x10020 < envExp.upperBoundary (page_align 0x10020) ∧
    MMAP_MIN_ADDR ≤ 0x10020 ∧
    ∃ p, explore envExp [] 0x10020 = (some p, [] ++ [p], true) ∧
      p.start ≤ page_align 0x10020 ∧ page_align 0x10020 < p.stop ∧
      (find envExp ([] ++ [p]) (some 0x10020)).proberInvoked = false ∧
      (find envExp ([] ++ [p]) (some 0x10020)).boundarySearched = false ∧
      (∃ q, (find envExp ([] ++ [p]) (some 0x10020)).result = some q ∧
        q.Contains 0x10020) ∧
      ((∀ r ∈ get envExp [], ¬ r.Contains 0x10020) →
        (find envExp ([] ++ [p]) (some 0x10020)).result = some p) :=
  ⟨rfl, by decide, by decide, by decide,
    explore_then_find_cached envExp [] 0x10020 rfl (by decide) (by decide)
      (by decide)⟩

/-- The three lifecycle events fired by the event source
(`pwndbg.events.stop` / `.exit` / `.new_objfile`). -/
inductive Event
  | stop
  | processExit
  | newObjfile
deriving DecidableEq, Repr

/-- `clear_explored_pages()`: the `@pwndbg.events.exit` handler; pops every
entry, leaving the list empty. -/
def clear_explored_pages (_explored : List Page) : List Page := []

/-- `explore_registers()`: the `@pwndbg.events.stop` handler; runs
`find(regs[regname])` for every common register value (a register may hold
no value, modelled as `none`). -/
def explore_registers (env : Env) (regvals : List (Option Nat))
    (explored : List Page) : List Page :=
  regvals.foldl (fun st v => (find env st v).explored) explored

/-- Dispatch of one lifecycle event to the handlers registered in
`vmmap.py`, restricted to their effect on `explored_pages`: exit runs
`clear_explored_pages`, stop runs `explore_registers`, new-objfile runs only
`check_aslr`, which never touches `explored_pages`. -/
def handle_event (env : Env) (regvals : List (Option Nat)) (ev : Event)
    (explored : List Page) : List Page :=
  match ev with
  | .processExit => clear_explored_pages explored
  | .stop => explore_registers env regvals explored
  | .newObjfile => explored

/-- C7 counterexample: a "process stopped" event does not leave the
Exploration Cache unchanged — register exploration during the stop handler
can append a freshly probed page. -/
theorem stop_event_counterexample :
    handle_event envExp [some 0x10000] Event.stop [] =
      [⟨0x10000, 0x1000, 7, 0, ""⟩] ∧
    handle_event envExp [some 0x10000] Event.stop [] ≠ [] := by
  refine ⟨?_, ?_⟩ <;> decide

lemma find_explored_extends (env : Env) (st : List Page) (v : Option Nat) :
    ∃ e, (find env st v).explored = st ++ e := by
  rcases v with _ | a
  · exact ⟨[], by simp [find]⟩
  · by_cases h : a < MMAP_MIN_ADDR
    · exact ⟨[], by simp [find, h]⟩
    · rcases hf : (get env st).find? (fun p => decide (p.Contains a)) with _ | q
      · rcases hp : env.peek (page_align a) with _ | _
        · exact ⟨[], by simp [find, h, hf, explore_peek_false env st a hp]⟩
        · exact ⟨[{ find_boundaries env (page_align a) "" with
              flags := 4 ||| (if env.poke (page_align a) then 2 else 0) |||
                (if !env.nx then 1 else 0) }],
            by simp [find, h, hf, explore_peek_true env st a hp]⟩
      · exact ⟨[], by simp [find, h, hf]⟩

lemma explore_registers_extends (env : Env) (regvals : List (Option Nat)) :
    ∀ st, ∃ e, explore_registers env regvals st = st ++ e := by
  induction regvals with
  | nil => exact fun st => ⟨[], by simp [explore_registers]⟩
  | cons v vs ih =>
    intro st
    obtain ⟨e1, h1⟩ := find_explored_extends env st v
    obtain ⟨e2, h2⟩ := ih ((find env st v).explored)
    refine ⟨e1 ++ e2, ?_⟩
    show explore_registers env vs ((find env st v).explored) = _
    rw [h2, h1, List.append_assoc]

/-- C7 amended: the "process exited" event empties the Exploration Cache;
the "new object file loaded" event leaves it unchanged; the "process
stopped" event never removes or clears entries, though its register
exploration may append newly probed pages. -/
theorem explored_cache_lifecycle (env : Env) (regvals : List (Option Nat))
    (st : List Page) :
    handle_event env regvals Event.processExit st = [] ∧
    handle_event env regvals Event.newObjfile st = st ∧
    ∃ e, handle_event env regvals Event.stop st = st ++ e :=
  ⟨rfl, rfl, explore_registers_extends env regvals st⟩

/-- Python `c in s` on text: character membership. -/
def strHasChar (s : String) (c : Char) : Bool := s.data.contains c

/-- Python `pat in s` on text: substring containment. -/
def strHasSub (pat s : String) : Bool :=
  (List.range (s.data.length + 1)).any fun i =>
    List.isPrefixOf pat.data (s.data.drop i)

/-- `check_aslr()`: the ASLR detector.  `fileData` is the content of
`/proc/sys/kernel/randomize_va_space` (`none` models a failed read, after
which `data` stays `b''`); `showOutput` is the text of
`show disable-randomization`.  Returns the stored `aslr` flag together with
— as instrumentation — whether the debugger setting was queried. -/
def check_aslr (fileData : Option String) (showOutput : String) :
    Bool × Bool :=
  let data := match fileData with
    | none => ""
    | some d => d
  if strHasChar data '0' then (false, false)
  else (strHasSub "is off." showOutput, true)

/-- C8: when the randomization toggle file contains `"0"`, the ASLR flag
stays false and the debugger's per-process setting is never consulted; when
reading the toggle file fails, detection proceeds to the debugger query
instead of failing. -/
theorem check_aslr_toggle (d out : String) (h : strHasChar d '0' = true) :
    check_aslr (some d) out = (false, false) ∧
    (check_aslr none out).2 = true ∧
    check_aslr none out = (strHasSub "is off." out, true) := by
  have h0 : strHasChar "" '0' = false := by decide
  exact ⟨by simp [check_aslr, h], by simp [check_aslr, h0],
    by simp [check_aslr, h0]⟩

theorem check_aslr_toggle_witness :
    strHasChar "0\n" '0' = true ∧
    check_aslr (some "0\n") "disable-randomization is off." = (false, false) ∧
    (check_aslr none "disable-randomization is off.").2 = true :=
  ⟨by decide,
    (check_aslr_toggle "0\n" "disable-randomization is off." (by decide)).1,
    (check_aslr_toggle "0\n" "disable-randomization is off." (by decide)).2.1⟩

/-! ### Python string primitives

`str.split`, `str.strip`, `int(_, 16)` and friends, modelled over `List
Char` so that every definition evaluates inside the kernel. -/

/-- Drop leading whitespace. -/
def skipWs : List Char → List Char
  | [] => []
  | c :: cs => if c.isWhitespace then skipWs cs else c :: cs

/-- Split off the leading run of non-whitespace characters. -/
def takeTok : List Char → List Char × List Char
  | [] => ([], [])
  | c :: cs =>
    if c.isWhitespace then ([], c :: cs)
    else
      let t := takeTok cs
      (c :: t.1, t.2)

/-- Worker for Python `str.split(None[, maxsplit])`: `budget = none` means
unlimited splits; with `budget = some 0` the rest of the string (leading
whitespace stripped) becomes the final field. -/
def pySplitGo (fuel : Nat) (budget : Option Nat) (cs : List Char) :
    List String :=
  match fuel with
  | 0 => []
  | fuel + 1 =>
    match budget with
    | some 0 =>
      match skipWs cs with
      | [] => []
      | rest => [String.mk rest]
    | _ =>
      match skipWs cs with
      | [] => []
      | c :: cs' =>
        let t := takeTok (c :: cs')
        String.mk t.1 :: pySplitGo fuel (budget.map (· - 1)) t.2

/-- Python `s.split()`: split on whitespace runs, no empty fields. -/
def pySplit (s : String) : List String :=
  pySplitGo (s.data.length + 1) none s.data

/-- Python `s.split(None, maxsplit)`. -/
def pySplitMax (s : String) (maxsplit : Nat) : List String :=
  pySplitGo (s.data.length + 1) (some maxsplit) s.data

/-- Python `s.split(c)` for a one-character separator. -/
def splitOnChar (c : Char) : List Char → List (List Char)
  | [] => [[]]
  | x :: xs =>
    let r := splitOnChar c xs
    if x = c then [] :: r
    else
      match r with
      | [] => [[x]]
      | y :: ys => (x :: y) :: ys

def pySplitChar (s : String) (c : Char) : List String :=
  (splitOnChar c s.data).map String.mk

/-- Python `s.strip()`. -/
def pyStrip (s : String) : String :=
  String.mk (((skipWs s.data).reverse |> skipWs).reverse)

/-- Python `s.strip(chars)`: remove leading and trailing characters drawn
from `chars`. -/
def pyStripChars (s : String) (chars : List Char) : String :=
  let l := s.data.dropWhile (fun c => chars.contains c)
  String.mk ((l.reverse.dropWhile (fun c => chars.contains c)).reverse)

/-- Python `s.startswith(pat)`. -/
def pyStarts (s pat : String) : Bool :=
  List.isPrefixOf pat.data s.data

/-- Value of one hexadecimal digit. -/
def hexVal (c : Char) : Option Nat :=
  if '0' ≤ c ∧ c ≤ '9' then some (c.toNat - 48)
  else if 'a' ≤ c ∧ c ≤ 'f' then some (c.toNat - 97 + 10)
  else if 'A' ≤ c ∧ c ≤ 'F' then some (c.toNat - 65 + 10)
  else none

def hexDigits : List Char → Nat → Option Nat
  | [], acc => some acc
  | c :: cs, acc =>
    match hexVal c with
    | some v => hexDigits cs (16 * acc + v)
    | none => none

/-- Python `int(s, 16)`: optional `0x`/`0X` prefix, then a non-empty run of
hex digits; `none` models the `ValueError` on malformed input.  (Signs and
surrounding whitespace never occur in the report lines modelled here.) -/
def int_hex (s : String) : Option Nat :=
  let cs :=
    match s.data with
    | '0' :: 'x' :: rest => rest
    | '0' :: 'X' :: rest => rest
    | cs => cs
  match cs with
  | [] => none
  | _ => hexDigits cs 0

/-- Python `data.splitlines()` for newline-separated text (no trailing
empty line). -/
def pySplitlines (s : String) : List String :=
  let parts := pySplitChar s (Char.ofNat 10)
  match parts.getLast? with
  | some "" => parts.dropLast
  | _ => parts

/-- The `try: inode, objfile = inode_objfile.split() / except: objfile = ''`
step of `proc_pid_maps`: the backing path is the second whitespace token of
the trailing field, or `""` when the field does not split into exactly two
tokens. -/
def objfile_of (inode_objfile : String) : String :=
  match pySplit inode_objfile with
  | [_inode, obj] => obj
  | _ => ""

/-- One line of the `proc_pid_maps` parsing loop.  `none` models the Python
exception a malformed line raises (`line.split(None, 4)` destructuring,
`maps.split('-')` destructuring, or `int(_, 16)`). -/
def parse_maps_line (line : String) : Option Page :=
  match pySplitMax line 4 with
  | [maps, perm, offset, _dev, inode_objfile] =>
    let objfile := objfile_of inode_objfile
    match pySplitChar maps '-' with
    | [s1, s2] =>
      match int_hex s1, int_hex s2, int_hex offset with
      | some start, some stop, some off =>
        let size := stop - start
        let flags :=
          (if strHasChar perm 'r' then 4 else 0) |||
          (if strHasChar perm 'w' then 2 else 0) |||
          (if strHasChar perm 'x' then 1 else 0)
        some ⟨start, size, flags, off, objfile⟩
      | _, _, _ => none
    | _ => none
  | _ => none

/-- `proc_pid_maps()` applied to the text read from the maps pseudo-file:
parse every line; any malformed line raises, modelled as `none`. -/
def proc_pid_maps (data : String) : Option (List Page) :=
  (pySplitlines data).mapM parse_maps_line

/-- C5: every well-formed proc-maps line parses to a Page whose size is
`stop - start`, whose flags are exactly the bitwise OR of the bits for the
`r`, `w`, `x` characters present in the permission field, and whose
`objfile` is the second token of the trailing field when it has two tokens
and `""` when it has at most one. -/
theorem proc_maps_line_fields (line : String) (p : Page)
    (hp : parse_maps_line line = some p) :
    ∃ maps perm offset dev tail,
      pySplitMax line 4 = [maps, perm, offset, dev, tail] ∧
      (∃ s1 s2 start stop,
        pySplitChar maps '-' = [s1, s2] ∧
        int_hex s1 = some start ∧ int_hex s2 = some stop ∧
        p.start = start ∧ p.size = stop - start) ∧
      p.flags =
        ((if strHasChar perm 'r' then 4 else 0) |||
         (if strHasChar perm 'w' then 2 else 0) |||
         (if strHasChar perm 'x' then 1 else 0)) ∧
      (∀ inode obj, pySplit tail = [inode, obj] → p.objfile = obj) ∧
      ((pySplit tail).length ≤ 1 → p.objfile = "") := by
  unfold parse_maps_line at hp
  split at hp
  case _ maps perm offset dev tail hsplit =>
    refine ⟨maps, perm, offset, dev, tail, hsplit, ?_⟩
    split at hp
    case _ s1 s2 hmaps =>
      split at hp
      case _ start stop off h1 h2 h3 =>
        obtain rfl : Page.mk start (stop - start)
            ((if strHasChar perm 'r' then 4 else 0) |||
             (if strHasChar perm 'w' then 2 else 0) |||
             (if strHasChar perm 'x' then 1 else 0)) off
            (objfile_of tail) = p := Option.some.inj hp
        refine ⟨⟨s1, s2, start, stop, hmaps, h1, h2, rfl, rfl⟩, rfl, ?_, ?_⟩
        · intro inode obj htail
          show objfile_of tail = obj
          unfold objfile_of
          rw [htail]
        · intro hlen
          show objfile_of tail = ""
          unfold objfile_of
          rcases hsp : pySplit tail with _ | ⟨x, _ | ⟨y, l⟩⟩
          · rfl
          · rfl
          · rw [hsp] at hlen; simp at hlen
      case _ hne => exact absurd hp (by simp)
    case _ hne => exact absurd hp (by simp)
  case _ hne => exact absurd hp (by simp)

/-- A line of the docstring example in `proc_pid_maps`, with the anonymous
heap line as a second sample. -/
def mapsLineDash : String :=
  "7f9526ce5000-7f9526d01000 r-xp 00000000 08:01 786466                     /bin/dash"

def mapsLineHeap : String :=
  "7f9526f03000-7f9526f05000 rw-p 00000000 00:00 0"

theorem proc_maps_line_fields_witness :
    parse_maps_line mapsLineDash =
      some ⟨0x7f9526ce5000, 0x1c000, 5, 0, "/bin/dash"⟩ ∧
    parse_maps_line mapsLineHeap =
      some ⟨0x7f9526f03000, 0x2000, 6, 0, ""⟩ ∧
    ∃ maps perm offset dev tail,
      pySplitMax mapsLineDash 4 = [maps, perm, offset, dev, tail] ∧
      (∃ s1 s2 start stop,
        pySplitChar maps '-' = [s1, s2] ∧
        int_hex s1 = some start ∧ int_hex s2 = some stop ∧
        (0x7f9526ce5000 : Nat) = start ∧ (0x1c000 : Nat) = stop - start) ∧
      (5 : Nat) =
        ((if strHasChar perm 'r' then 4 else 0) |||
         (if strHasChar perm 'w' then 2 else 0) |||
         (if strHasChar perm 'x' then 1 else 0)) ∧
      (∀ inode obj, pySplit tail = [inode, obj] → "/bin/dash" = obj) ∧
      ((pySplit tail).length ≤ 1 → "/bin/dash" = "") :=
  ⟨by decide, by decide,
    proc_maps_line_fields mapsLineDash
      ⟨0x7f9526ce5000, 0x1c000, 5, 0, "/bin/dash"⟩ (by decide)⟩

/-- State threaded through the `info_files` parsing loop: the `seen_files`
set (as a list), the recorded `main_exe` name, the accumulated pages, and —
as instrumentation — the `(address, objfile)` pairs delegated to the
object-file mapper and the lines reported as `Bad data` warnings. -/
structure IFState where
  seen : List String
  main_exe : String
  pages : List Page
  delegated : List (Nat × String)
  warnings : List String
deriving DecidableEq, Repr

def initIFState : IFState := ⟨[], "", [], [], []⟩

/-- One line of the `info_files` loop.  `none` models the uncaught Python
exception on a backquote line with no second field or an unparseable hex
first token. -/
def info_files_line (elfMap : Nat → String → List Page) (st : IFState)
    (rawLine : String) : Option IFState :=
  let line := pyStrip rawLine
  if pyStarts line "`" then
    match pySplitMax line 1 with
    | [exename, _filetype] =>
      some { st with
        main_exe := pyStripChars exename ['`', ',', Char.ofNat 39] }
    | _ => none
  else if !pyStarts line "0x" then some st
  else
    let fields := pySplitMax line 6
    match int_hex (fields.getD 0 "") with
    | none => none
    | some vaddr =>
      let objfile? : Option String :=
        if fields.length = 5 then some st.main_exe
        else if fields.length = 7 then some (fields.getD 6 "")
        else none
      match objfile? with
      | none => some { st with warnings := st.warnings ++ [line] }
      | some objfile =>
        if st.seen.contains objfile then some st
        else some { st with
          seen := st.seen ++ [objfile],
          pages := st.pages ++ elfMap vaddr objfile,
          delegated := st.delegated ++ [(vaddr, objfile)] }

/-- `info_files()` applied to the report text. -/
def info_files (elfMap : Nat → String → List Page) (output : String) :
    Option IFState :=
  (pySplitlines output).foldlM (info_files_line elfMap) initIFState

/-- The deduplication invariant of the `info_files` loop: no backing-object
name is delegated twice, and every delegated name has been recorded in
`seen_files`. -/
def IFInv (st : IFState) : Prop :=
  (st.delegated.map Prod.snd).Nodup ∧
  ∀ n ∈ st.delegated.map Prod.snd, st.seen.contains n = true

lemma info_files_line_preserves (elfMap : Nat → String → List Page)
    (st st' : IFState) (line : String) (h : IFInv st)
    (hs : info_files_line elfMap st line = some st') : IFInv st' := by
  simp only [info_files_line] at hs
  split at hs
  · -- backquote line
    split at hs
    · obtain rfl := Option.some.inj hs; exact h
    · exact absurd hs (by simp)
  split at hs
  · obtain rfl := Option.some.inj hs; exact h
  split at hs
  · exact absurd hs (by simp)
  split at hs
  · obtain rfl := Option.some.inj hs; exact h
  case _ objfile heq =>
    split at hs
    · obtain rfl := Option.some.inj hs; exact h
    case _ hseen =>
      obtain rfl := Option.some.inj hs
      obtain ⟨hnd, hsub⟩ := h
      constructor
      · simp only [List.map_append]
        rw [List.nodup_append]
        refine ⟨hnd, by simp, ?_⟩
        intro n hn hmem
        simp at hmem
        subst hmem
        rw [hsub n hn] at hseen
        exact absurd hseen (by simp)
      · intro n hn
        simp only [List.map_append] at hn
        rcases List.mem_append.mp hn with hn | hn
        · have := hsub n hn
          simp [List.contains] at this ⊢
          exact Or.inl this
        · simp at hn
          subst hn
          simp [List.contains]

lemma info_files_foldlM_preserves (elfMap : Nat → String → List Page) :
    ∀ (lines : List String) (st r : IFState), IFInv st →
      lines.foldlM (info_files_line elfMap) st = some r → IFInv r := by
  intro lines
  induction lines with
  | nil =>
    intro st r h hf
    obtain rfl : st = r := Option.some.inj hf
    exact h
  | cons l ls ih =>
    intro st r h hf
    rcases hstep : info_files_line elfMap st l with _ | st'
    · rw [List.foldlM_cons, hstep] at hf
      exact absurd hf (by simp)
    · rw [List.foldlM_cons, hstep] at hf
      exact ih st' r (info_files_line_preserves elfMap st st' l h hstep) hf

/-- C9: in the `info_files` report parser, a 5-field address line is
attributed to the most recently recorded main executable, a 7-field line
uses its own trailing filename, a line whose backing object was already
seen is skipped, a line with any other field count is recorded as a warning
and skipped without aborting, and a full run never delegates the same
backing-object name twice. -/
theorem info_files_report (elfMap : Nat → String → List Page) :
    (∀ st line vaddr,
      pyStarts (pyStrip line) "`" = false →
      pyStarts (pyStrip line) "0x" = true →
      int_hex ((pySplitMax (pyStrip line) 6).getD 0 "") = some vaddr →
      (pySplitMax (pyStrip line) 6).length = 5 →
      st.seen.contains st.main_exe = false →
      info_files_line elfMap st line = some { st with
        seen := st.seen ++ [st.main_exe],
        pages := st.pages ++ elfMap vaddr st.main_exe,
        delegated := st.delegated ++ [(vaddr, st.main_exe)] }) ∧
    (∀ st line vaddr,
      pyStarts (pyStrip line) "`" = false →
      pyStarts (pyStrip line) "0x" = true →
      int_hex ((pySplitMax (pyStrip line) 6).getD 0 "") = some vaddr →
      (pySplitMax (pyStrip line) 6).length = 7 →
      st.seen.contains ((pySplitMax (pyStrip line) 6).getD 6 "") = false →
      info_files_line elfMap st line = some { st with
        seen := st.seen ++ [(pySplitMax (pyStrip line) 6).getD 6 ""],
        pages := st.pages ++
          elfMap vaddr ((pySplitMax (pyStrip line) 6).getD 6 ""),
        delegated := st.delegated ++
          [(vaddr, (pySplitMax (pyStrip line) 6).getD 6 "")] }) ∧
    (∀ st line vaddr,
      pyStarts (pyStrip line) "`" = false →
      pyStarts (pyStrip line) "0x" = true →
      int_hex ((pySplitMax (pyStrip line) 6).getD 0 "") = some vaddr →
      (pySplitMax (pyStrip line) 6).length = 5 →
      st.seen.contains st.main_exe = true →
      info_files_line elfMap st line = some st) ∧
    (∀ st line vaddr,
      pyStarts (pyStrip line) "`" = false →
      pyStarts (pyStrip line) "0x" = true →
      int_hex ((pySplitMax (pyStrip line) 6).getD 0 "") = some vaddr →
      (pySplitMax (pyStrip line) 6).length ≠ 5 →
      (pySplitMax (pyStrip line) 6).length ≠ 7 →
      info_files_line elfMap st line = some { st with
        warnings := st.warnings ++ [pyStrip line] }) ∧
    (∀ output r, info_files elfMap output = some r →
      (r.delegated.map Prod.snd).Nodup) := by
  refine ⟨?_, ?_, ?_, ?_, ?_⟩
  · intro st line vaddr hbq h0x hhex hlen hseen
    have hlt : 0 < (pySplitMax (pyStrip line) 6).length := by omega
    have hhex' : int_hex ((pySplitMax (pyStrip line) 6)[0]) = some vaddr := by
      rw [List.getD_eq_getElem?_getD, List.getElem?_eq_getElem hlt] at hhex
      simpa using hhex
    have hseen' : st.main_exe ∉ st.seen := by simpa using hseen
    simp [info_files_line, hbq, h0x, hlen, hhex', hseen']
  · intro st line vaddr hbq h0x hhex hlen hseen
    have hlt : 0 < (pySplitMax (pyStrip line) 6).length := by omega
    have hlt6 : 6 < (pySplitMax (pyStrip line) 6).length := by omega
    have hhex' : int_hex ((pySplitMax (pyStrip line) 6)[0]) = some vaddr := by
      rw [List.getD_eq_getElem?_getD, List.getElem?_eq_getElem hlt] at hhex
      simpa using hhex
    have hseen' : (pySplitMax (pyStrip line) 6)[6] ∉ st.seen := by
      rw [List.getD_eq_getElem?_getD, List.getElem?_eq_getElem hlt6] at hseen
      simpa using hseen
    simp [info_files_line, hbq, h0x, hlen, hhex', hseen']
  · intro st line vaddr hbq h0x hhex hlen hseen
    have hlt : 0 < (pySplitMax (pyStrip line) 6).length := by omega
    have hhex' : int_hex ((pySplitMax (pyStrip line) 6)[0]) = some vaddr := by
      rw [List.getD_eq_getElem?_getD, List.getElem?_eq_getElem hlt] at hhex
      simpa using hhex
    have hseen' : st.main_exe ∈ st.seen := by simpa using hseen
    simp [info_files_line, hbq, h0x, hlen, hhex', hseen']
  · intro st line vaddr hbq h0x hhex hlen5 hlen7
    have hhex' : int_hex ((pySplitMax (pyStrip line) 6)[0]?.getD "")
        = some vaddr := by
      rwa [List.getD_eq_getElem?_getD] at hhex
    simp [info_files_line, hbq, h0x, hhex', hlen5, hlen7]
  · intro output r hr
    exact (info_files_foldlM_preserves elfMap (pySplitlines output)
      initIFState r ⟨List.nodup_nil, by simp [initIFState]⟩ hr).1

/-- A small object-file mapper stub: one page per delegated object. -/
def elfMapOne (vaddr : Nat) (name : String) : List Page :=
  [⟨vaddr, 0x1000, 4, 0, name⟩]

def ifLineExe : String := "`/bin/bash', file type elf64-x86-64."

def ifLine5 : String := "0x0000000000400238 - 0x0000000000400254 is .interp"

def ifLine5b : String := "0x0000000000400254 - 0x0000000000400274 is .note.ABI-tag"

def ifLine7 : String :=
  "0x00007ffff7dda1c8 - 0x00007ffff7dda1ec is .note.gnu.build-id in /lib64/ld-linux-x86-64.so.2"

def ifLine6 : String := "0x1000 - 0x2000 is .text in"

def ifOutput : String :=
  ifLineExe ++ "\n" ++ ifLine5 ++ "\n" ++ ifLine5b ++ "\n" ++ ifLine7

def ifRun : IFState :=
  ⟨["/bin/bash", "/lib64/ld-linux-x86-64.so.2"], "/bin/bash",
    [⟨0x400238, 0x1000, 4, 0, "/bin/bash"⟩,
     ⟨0x7ffff7dda1c8, 0x1000, 4, 0, "/lib64/ld-linux-x86-64.so.2"⟩],
    [(0x400238, "/bin/bash"),
     (0x7ffff7dda1c8, "/lib64/ld-linux-x86-64.so.2")], []⟩

def ifStateExe : IFState := ⟨[], "/bin/bash", [], [], []⟩

theorem info_files_report_witness :
    info_files_line elfMapOne ifStateExe ifLine5 = some { ifStateExe with
      seen := [] ++ ["/bin/bash"],
      pages := [] ++ elfMapOne 0x400238 "/bin/bash",
      delegated := [] ++ [(0x400238, "/bin/bash")] } ∧
    info_files_line elfMapOne ifStateExe ifLine7 = some { ifStateExe with
      seen := [] ++ ["/lib64/ld-linux-x86-64.so.2"],
      pages := [] ++ elfMapOne 0x7ffff7dda1c8 "/lib64/ld-linux-x86-64.so.2",
      delegated := [] ++ [(0x7ffff7dda1c8, "/lib64/ld-linux-x86-64.so.2")] } ∧
    info_files_line elfMapOne { ifStateExe with seen := ["/bin/bash"] }
      ifLine5b = some { ifStateExe with seen := ["/bin/bash"] } ∧
    info_files_line elfMapOne ifStateExe ifLine6 = some { ifStateExe with
      warnings := [] ++ [pyStrip ifLine6] } ∧
    info_files elfMapOne ifOutput = some ifRun ∧
    (ifRun.delegated.map Prod.snd).Nodup :=
  ⟨(info_files_report elfMapOne).1 ifStateExe ifLine5 0x400238
      (by decide) (by decide) (by decide) (by decide) (by decide),
    (info_files_report elfMapOne).2.1 ifStateExe ifLine7 0x7ffff7dda1c8
      (by decide) (by decide) (by decide) (by decide) (by decide),
    (info_files_report elfMapOne).2.2.1 { ifStateExe with seen := ["/bin/bash"] }
      ifLine5b 0x400254 (by decide) (by decide) (by decide) (by decide)
      (by decide),
    (info_files_report elfMapOne).2.2.2.1 ifStateExe ifLine6 0x1000
      (by decide) (by decide) (by decide) (by decide) (by decide),
    by decide,
    (info_files_report elfMapOne).2.2.2.2 ifOutput ifRun (by decide)⟩

/-- The auxiliary-vector entries consumed by `info_auxv` (`pwndbg.auxv` is
external; a missing/zero entry is falsy in the Python source, so string
entries model absence as `""` and integer entries as `0`). -/
structure Auxv where
  at_execfn : String
  at_entry : Nat
  at_sysinfo_ehdr : Nat
  at_phdr : Nat
deriving DecidableEq, Repr

/-- `info_auxv(skip_exe=False)`: the AuxvDerived strategy.  `auxv = none`
models an empty auxiliary vector; `elfMap` is the object-file mapper
`pwndbg.elf.map`. -/
def info_auxv (env : Env) (elfMap : Nat → String → List Page)
    (auxv : Option Auxv) (skip_exe : Bool) : List Page :=
  match auxv with
  | none => []
  | some auxv =>
    let exe_name := if auxv.at_execfn = "" then "main.exe" else auxv.at_execfn
    let entry := auxv.at_entry
    let vdso := auxv.at_sysinfo_ehdr
    let phdr := auxv.at_phdr
    let pages : List Page := []
    let pages :=
      if ¬skip_exe ∧ (entry ≠ 0 ∨ phdr ≠ 0) then
        pages ++ elfMap (if entry ≠ 0 then entry else phdr) exe_name
      else pages
    let pages :=
      if vdso ≠ 0 then pages ++ [find_boundaries env vdso "[vdso]"]
      else pages
    sortPages pages

/-- C10: whenever `AT_SYSINFO_EHDR` is non-zero, the vdso Page that
`info_auxv` emits is exactly the `find_boundaries` result, whose flags are
the READ bit alone (4), whose offset is 0 and whose objfile is `"[vdso]"` —
for every environment, i.e. regardless of the mapping's actual
write/execute permissions, which are never probed. -/
theorem info_auxv_vdso_readonly (env : Env)
    (elfMap : Nat → String → List Page) (auxv : Auxv) (skip_exe : Bool)
    (hv : auxv.at_sysinfo_ehdr ≠ 0) :
    ∃ p, p ∈ info_auxv env elfMap (some auxv) skip_exe ∧
      p = find_boundaries env auxv.at_sysinfo_ehdr "[vdso]" ∧
      p.flags = 4 ∧ p.offset = 0 ∧ p.objfile = "[vdso]" := by
  refine ⟨find_boundaries env auxv.at_sysinfo_ehdr "[vdso]",
    ?_, rfl, rfl, rfl, rfl⟩
  show _ ∈ info_auxv env elfMap (some auxv) skip_exe
  unfold info_auxv
  simp only [hv, if_true, ne_eq, not_false_eq_true, if_pos]
  unfold sortPages
  rw [List.mem_insertionSort]
  exact List.mem_append_right _ (List.mem_singleton.mpr rfl)

def auxvSample : Auxv := ⟨"/bin/dash", 0x402000, 0x7ffff7ffd000, 0x400040⟩

theorem info_auxv_vdso_readonly_witness :
    auxvSample.at_sysinfo_ehdr ≠ 0 ∧
    ∃ p, p ∈ info_auxv envExp elfMapOne (some auxvSample) false ∧
      p = find_boundaries envExp auxvSample.at_sysinfo_ehdr "[vdso]" ∧
      p.flags = 4 ∧ p.offset = 0 ∧ p.objfile = "[vdso]" :=
  ⟨by decide,
    info_auxv_vdso_readonly envExp elfMapOne auxvSample false (by decide)⟩

end Vmmap
